import Mathlib

/-!
Verification of the SheffieldSolar Carbon-Intensity-API client
(`carbon_intensity_api.py`), shallowly embedded in Lean 4.

Timestamps are modelled as natural numbers of microseconds since an
arbitrary epoch (Python `datetime` exposes `minute`, `second` and
`microsecond` fields, recovered here by modular arithmetic).  Durations
(`timedelta`) are likewise microsecond counts.  The HTTP transport and
JSON parser are external collaborators: they are modelled as functions
supplied to the embedded operations, and a trace of issued requests /
attempts / sleeps is returned alongside the result so that the
observable interaction with the transport can be reasoned about.
-/

namespace CarbonIntensity

/-- Microseconds per second. -/
def usPerSecond : Nat := 1000000

/-- Microseconds per minute. -/
def usPerMinute : Nat := 60 * usPerSecond

/-- Microseconds per hour. -/
def usPerHour : Nat := 60 * usPerMinute

/-- Microseconds per day. -/
def usPerDay : Nat := 24 * usPerHour

/-- The `microsecond` field of a timestamp (Python `dt.microsecond`). -/
def microsecond (t : Nat) : Nat := t % usPerSecond

/-- The `second` field of a timestamp (Python `dt.second`). -/
def second (t : Nat) : Nat := t / usPerSecond % 60

/-- The `minute` field of a timestamp (Python `dt.minute`). -/
def minute (t : Nat) : Nat := t / usPerMinute % 60

/-- A timestamp lies on a half-hour boundary: minute 0 or 30, zero
seconds and zero sub-second components. -/
def isHalfHourBoundary (t : Nat) : Prop :=
  (minute t = 0 ∨ minute t = 30) ∧ second t = 0 ∧ microsecond t = 0

instance (t : Nat) : Decidable (isHalfHourBoundary t) := by
  unfold isHalfHourBoundary; infer_instance

/-- Embedding of `CarbonIntensityAPI._nearest_hh`:

    if not(dt.minute % 30 == 0 and dt.second == 0 and dt.microsecond == 0):
        dt = dt - timedelta(minutes=dt.minute%30, seconds=dt.second) \
               + timedelta(minutes=30)
    return dt

The subtracted amount never exceeds `dt` (it removes exactly the
`minute % 30` minutes and `second` seconds that `dt` itself contains),
so `Nat` subtraction is exact here. -/
def nearest_hh (dt : Nat) : Nat :=
  if minute dt % 30 = 0 ∧ second dt = 0 ∧ microsecond dt = 0 then dt
  else dt - (minute dt % 30 * usPerMinute + second dt * usPerSecond) + 30 * usPerMinute

end CarbonIntensity

namespace CarbonIntensity

/-- C2: The claim's examples hold on whole-second inputs (12:00:00 is a
fixed point, 12:01:00 rounds to 12:30:00, 12:31:00 rounds to 13:00:00),
but `_nearest_hh` does not zero the microsecond field: at the failing
input 12:00:00.000001 the code returns 12:30:00.000001, which is not a
half-hour boundary, contradicting the claim (and the function's own
docstring) that every output lies on a half-hour boundary. -/
theorem nearest_hh_microsecond_bug :
    nearest_hh (12 * usPerHour) = 12 * usPerHour ∧
    nearest_hh (12 * usPerHour + 1 * usPerMinute) = 12 * usPerHour + 30 * usPerMinute ∧
    nearest_hh (12 * usPerHour + 31 * usPerMinute) = 13 * usPerHour ∧
    nearest_hh (12 * usPerHour + 1) = 12 * usPerHour + 30 * usPerMinute + 1 ∧
    ¬ isHalfHourBoundary (nearest_hh (12 * usPerHour + 1)) := by
  decide

/-! ## Page fetch with retry (`CarbonIntensityAPI._fetch_url`)

The HTTP transport is modelled as a function from the 1-based attempt
number to the outcome of that attempt: `requests.get` + `raise_for_status`
either raises `requests.exceptions.HTTPError` (`httpError`), raises some
other exception carrying an opaque payload (`otherError e`), or returns a
page whose body may or may not be decodable by `page.json()` (`ok page`).
The returned trace records how many attempts were made, the sequence of
`sleep` delays performed, and the final result: the decoded content, the
generic `Exception("Error communicating with the Carbon Intensity API.")`
(`fetchError`), or an exception re-raised unmodified (`raised e`). -/

/-- A page returned by a successful HTTP attempt: whether `page.json()`
succeeds, and the (opaque) decoded content. -/
structure PageBody where
  decodable : Bool
  content : Nat
deriving DecidableEq

/-- Outcome of one `requests.get(url, ...)` + `raise_for_status()` attempt. -/
inductive AttemptOutcome where
  | httpError : AttemptOutcome
  | otherError (e : Nat) : AttemptOutcome
  | ok (page : PageBody) : AttemptOutcome
deriving DecidableEq

/-- Result of `_fetch_url`: decoded content, the generic communication
`Exception` (`fetchError`), or a re-raised transport exception. -/
inductive FetchResult where
  | success (content : Nat) : FetchResult
  | fetchError : FetchResult
  | raised (e : Nat) : FetchResult
deriving DecidableEq

/-- Observable trace of one `_fetch_url` call. -/
structure FetchTrace where
  attempts : Nat
  sleeps : List Nat
  result : FetchResult
deriving DecidableEq

/-- The `while not success and try_counter < self.retries + 1` loop of
`_fetch_url`, together with the post-loop `if not success: raise` and the
`page.json()` decode.  `r` is the number of loop iterations still allowed
(`retries + 1 - try_counter`), `made` the attempts made so far
(`try_counter`), `delay` the current back-off delay, and `sleeps` the
reversed accumulator of delays slept so far.  On `HTTPError` the code
sleeps, doubles the delay and continues; on any other exception it
re-raises; on success it leaves the loop and decodes. -/
def fetchGo (T : Nat → AttemptOutcome) : Nat → Nat → Nat → List Nat → FetchTrace
  | 0, made, _, sleeps => ⟨made, sleeps.reverse, FetchResult.fetchError⟩
  | r+1, made, delay, sleeps =>
    match T (made+1) with
    | AttemptOutcome.ok page =>
        ⟨made+1, sleeps.reverse,
         if page.decodable then FetchResult.success page.content else FetchResult.fetchError⟩
    | AttemptOutcome.httpError => fetchGo T r (made+1) (delay*2) (delay :: sleeps)
    | AttemptOutcome.otherError e => ⟨made+1, sleeps.reverse, FetchResult.raised e⟩

/-- Embedding of `CarbonIntensityAPI._fetch_url`: `success = False`,
`try_counter = 0`, `delay = 1`, then the retry loop. -/
def fetch_url (retries : Nat) (T : Nat → AttemptOutcome) : FetchTrace :=
  fetchGo T (retries + 1) 0 1 []

/-- The doubled-delay sleep sequence prepended with the current delay is
the sleep sequence of the undoubled delay, one element longer. -/
theorem delays_cons (delay j : Nat) :
    delay :: (List.range j).map (fun i => delay * 2 * 2 ^ i) =
      (List.range (j+1)).map (fun i => delay * 2 ^ i) := by
  rw [List.range_succ_eq_map, List.map_cons, List.map_map]
  have h1 : delay * 2 ^ 0 = delay := by ring
  have h2 : ((fun i => delay * 2 ^ i) ∘ Nat.succ) = fun i => delay * 2 * 2 ^ i := by
    funext i
    simp only [Function.comp_apply, pow_succ]
    ring
  rw [h1, h2]

/-- If every attempt the loop can still make fails with `HTTPError`, the
loop exhausts its budget, sleeping after every failed attempt (including
the last one), and `_fetch_url` raises the communication error. -/
theorem fetchGo_exhaust (T : Nat → AttemptOutcome) (r : Nat) :
    ∀ made delay sleeps,
      (∀ k, made < k → k ≤ made + r → T k = AttemptOutcome.httpError) →
      fetchGo T r made delay sleeps =
        ⟨made + r, sleeps.reverse ++ (List.range r).map (fun i => delay * 2 ^ i),
         FetchResult.fetchError⟩ := by
  induction r with
  | zero =>
      intro made delay sleeps _
      simp [fetchGo]
  | succ r ih =>
      intro made delay sleeps h
      have hh : T (made + 1) = AttemptOutcome.httpError := h (made+1) (by omega) (by omega)
      simp only [fetchGo, hh]
      rw [ih (made+1) (delay*2) (delay :: sleeps) (fun k hk1 hk2 => h k (by omega) (by omega))]
      simp only [FetchTrace.mk.injEq]
      refine ⟨by omega, ?_, trivial⟩
      rw [List.reverse_cons, List.append_assoc, List.singleton_append, delays_cons]

/-- Skipping `j` leading `HTTPError` attempts: the loop state after the
first `j` attempts all failed with `HTTPError`. -/
theorem fetchGo_skip (T : Nat → AttemptOutcome) (j : Nat) :
    ∀ r made delay sleeps, j ≤ r →
      (∀ k, made < k → k ≤ made + j → T k = AttemptOutcome.httpError) →
      fetchGo T r made delay sleeps =
        fetchGo T (r - j) (made + j) (delay * 2 ^ j)
          (((List.range j).map (fun i => delay * 2 ^ i)).reverse ++ sleeps) := by
  induction j with
  | zero =>
      intro r made delay sleeps _ _
      simp
  | succ j ih =>
      intro r made delay sleeps hjr h
      match r, hjr with
      | r+1, _ =>
        have hh : T (made + 1) = AttemptOutcome.httpError := h (made+1) (by omega) (by omega)
        simp only [fetchGo, hh]
        rw [ih r (made+1) (delay*2) (delay :: sleeps) (by omega)
          (fun k hk1 hk2 => h k (by omega) (by omega))]
        have e1 : r - j = r + 1 - (j + 1) := by omega
        have e2 : made + 1 + j = made + (j + 1) := by omega
        have e3 : delay * 2 * 2 ^ j = delay * 2 ^ (j + 1) := by rw [pow_succ]; ring
        have e4 : ((List.range j).map (fun i => delay * 2 * 2 ^ i)).reverse ++ (delay :: sleeps) =
            ((List.range (j+1)).map (fun i => delay * 2 ^ i)).reverse ++ sleeps := by
          rw [← delays_cons, List.reverse_cons, List.append_assoc, List.singleton_append]
        rw [e1, e2, e3, e4]

/-- The loop makes at most `made + r` further attempts in total. -/
theorem fetchGo_attempts_le (T : Nat → AttemptOutcome) (r : Nat) :
    ∀ made delay sleeps, (fetchGo T r made delay sleeps).attempts ≤ made + r := by
  induction r with
  | zero =>
      intro made delay sleeps
      simp [fetchGo]
  | succ r ih =>
      intro made delay sleeps
      simp only [fetchGo]
      split
      · simp
      · have := ih (made+1) (delay*2) (delay :: sleeps)
        omega
      · simp

/-- The function `_fetch_url` makes at most `retries + 1` attempts. -/
theorem fetch_url_attempts_le (retries : Nat) (T : Nat → AttemptOutcome) :
    (fetch_url retries T).attempts ≤ retries + 1 := by
  have := fetchGo_attempts_le T (retries + 1) 0 1 []
  simpa [fetch_url] using this

/-- If every one of the `retries + 1` attempts fails with `HTTPError`,
`_fetch_url` raises the communication error after exactly `retries + 1`
attempts, having slept `retries + 1` times with doubling delays. -/
theorem fetch_url_exhaust (retries : Nat) (T : Nat → AttemptOutcome)
    (hh : ∀ k, 1 ≤ k → k ≤ retries + 1 → T k = AttemptOutcome.httpError) :
    fetch_url retries T =
      ⟨retries + 1, (List.range (retries + 1)).map (fun i => 2 ^ i),
       FetchResult.fetchError⟩ := by
  unfold fetch_url
  rw [fetchGo_exhaust T (retries + 1) 0 1 [] (fun k hk1 hk2 => hh k (by omega) (by omega))]
  simp

/-- If the first `n - 1` attempts fail with `HTTPError` and the `n`-th
returns a page (with `n` within the attempt budget), `_fetch_url` stops
after exactly `n` attempts, slept `n - 1` times with doubling delays, and
its result depends only on whether the page decodes. -/
theorem fetch_url_http_then_ok (retries n : Nat) (T : Nat → AttemptOutcome) (p : PageBody)
    (h1 : 1 ≤ n) (h2 : n ≤ retries + 1)
    (hh : ∀ k, 1 ≤ k → k < n → T k = AttemptOutcome.httpError)
    (hok : T n = AttemptOutcome.ok p) :
    fetch_url retries T =
      ⟨n, (List.range (n-1)).map (fun i => 2 ^ i),
       if p.decodable then FetchResult.success p.content else FetchResult.fetchError⟩ := by
  unfold fetch_url
  rw [fetchGo_skip T (n-1) (retries+1) 0 1 [] (by omega)
    (fun k hk1 hk2 => hh k (by omega) (by omega))]
  obtain ⟨m, hm⟩ : ∃ m, retries + 1 - (n - 1) = m + 1 := ⟨retries + 1 - n, by omega⟩
  rw [hm]
  simp only [fetchGo, Nat.zero_add]
  rw [show n - 1 + 1 = n from by omega, hok]
  simp [FetchTrace.mk.injEq]

/-- If the first `n - 1` attempts fail with `HTTPError` and the `n`-th
raises a non-`HTTPError` exception (with `n` within the attempt budget),
`_fetch_url` re-raises it immediately after exactly `n` attempts. -/
theorem fetch_url_http_then_other (retries n e : Nat) (T : Nat → AttemptOutcome)
    (h1 : 1 ≤ n) (h2 : n ≤ retries + 1)
    (hh : ∀ k, 1 ≤ k → k < n → T k = AttemptOutcome.httpError)
    (hother : T n = AttemptOutcome.otherError e) :
    fetch_url retries T =
      ⟨n, (List.range (n-1)).map (fun i => 2 ^ i), FetchResult.raised e⟩ := by
  unfold fetch_url
  rw [fetchGo_skip T (n-1) (retries+1) 0 1 [] (by omega)
    (fun k hk1 hk2 => hh k (by omega) (by omega))]
  obtain ⟨m, hm⟩ : ∃ m, retries + 1 - (n - 1) = m + 1 := ⟨retries + 1 - n, by omega⟩
  rw [hm]
  simp only [fetchGo, Nat.zero_add]
  rw [show n - 1 + 1 = n from by omega, hother]
  simp [FetchTrace.mk.injEq]

/-- C3: `_fetch_url` makes at most `retries + 1` HTTP attempts; it fails
with the communication `FetchError` exactly when either all `retries + 1`
attempts ended in an `HTTPError` (and then, with `retries = 3`, it made
exactly 4 attempts) or the HTTP call succeeded but the body failed to
decode — and a decode failure causes no additional attempt (the attempt
count equals the index of the successful-but-undecodable attempt). -/
theorem c3_retry_and_fetch_error (retries : Nat) (T : Nat → AttemptOutcome) :
    (fetch_url retries T).attempts ≤ retries + 1 ∧
    ((fetch_url retries T).result = FetchResult.fetchError ↔
      (∀ k, 1 ≤ k → k ≤ retries + 1 → T k = AttemptOutcome.httpError) ∨
      (∃ n p, 1 ≤ n ∧ n ≤ retries + 1 ∧
        (∀ k, 1 ≤ k → k < n → T k = AttemptOutcome.httpError) ∧
        T n = AttemptOutcome.ok p ∧ p.decodable = false ∧
        (fetch_url retries T).attempts = n)) ∧
    ((∀ k, 1 ≤ k → k ≤ retries + 1 → T k = AttemptOutcome.httpError) → retries = 3 →
      (fetch_url retries T).attempts = 4) := by
  refine ⟨fetch_url_attempts_le retries T, ⟨?_, ?_⟩, ?_⟩
  · intro hres
    by_cases hall : ∀ k, 1 ≤ k → k ≤ retries + 1 → T k = AttemptOutcome.httpError
    · exact Or.inl hall
    · right
      push_neg at hall
      obtain ⟨k0, hk1, hk2, hk3⟩ := hall
      have hex : ∃ k, 1 ≤ k ∧ k ≤ retries + 1 ∧ T k ≠ AttemptOutcome.httpError :=
        ⟨k0, hk1, hk2, hk3⟩
      set n := Nat.find hex with hndef
      obtain ⟨hn1, hn2, hn3⟩ := Nat.find_spec hex
      have hlead : ∀ k, 1 ≤ k → k < n → T k = AttemptOutcome.httpError := by
        intro k hk hkn
        by_contra hne
        exact Nat.find_min hex hkn ⟨hk, by omega, hne⟩
      cases hTn : T n with
      | httpError => exact absurd hTn hn3
      | otherError e =>
          have h := fetch_url_http_then_other retries n e T hn1 hn2 hlead hTn
          rw [h] at hres
          exact absurd hres (by simp)
      | ok p =>
          have h := fetch_url_http_then_ok retries n T p hn1 hn2 hlead hTn
          rw [h] at hres
          cases hdec : p.decodable with
          | true => rw [hdec] at hres; exact absurd hres (by simp)
          | false =>
              exact ⟨n, p, hn1, hn2, hlead, hTn, hdec, by rw [h]⟩
  · rintro (hall | ⟨n, p, h1, h2, hlead, hok, hdec, -⟩)
    · rw [fetch_url_exhaust retries T hall]
    · rw [fetch_url_http_then_ok retries n T p h1 h2 hlead hok, hdec]
      simp
  · intro hall hr
    rw [fetch_url_exhaust retries T hall, hr]

/-- Witness for C3: with `retries = 3` and a transport that always fails
with `HTTPError`, `_fetch_url` makes exactly 4 attempts and raises the
communication error. -/
theorem c3_retry_and_fetch_error_witness :
    (fetch_url 3 (fun _ => AttemptOutcome.httpError)).attempts = 4 ∧
    (fetch_url 3 (fun _ => AttemptOutcome.httpError)).result = FetchResult.fetchError := by
  refine ⟨(c3_retry_and_fetch_error 3 (fun _ => AttemptOutcome.httpError)).2.2
    (fun k _ _ => rfl) rfl, ?_⟩
  exact ((c3_retry_and_fetch_error 3 (fun _ => AttemptOutcome.httpError)).2.1).mpr
    (Or.inl (fun k _ _ => rfl))

/-- C5 counterexample: with `retries = 3` and a transport that always
fails with `HTTPError`, `_fetch_url` performs 4 back-off waits (1, 2, 4,
8) but only makes 4 attempts, so the final wait is not followed by any
attempt — refuting the claim that a wait is never performed without a
subsequent attempt (which would force at most `attempts - 1` waits). -/
theorem c5_trailing_backoff_counterexample :
    fetch_url 3 (fun _ => AttemptOutcome.httpError) =
      ⟨4, [1, 2, 4, 8], FetchResult.fetchError⟩ ∧
    ¬ ((fetch_url 3 (fun _ => AttemptOutcome.httpError)).sleeps.length ≤
        (fetch_url 3 (fun _ => AttemptOutcome.httpError)).attempts - 1) := by
  decide

/-- C5, amended: the back-off delay starts at 1 and doubles after every
`HTTPError` attempt, and a blocking wait of the current delay is
performed after every failed attempt (hence before each subsequent
attempt on the success path, but also after the final failed attempt
when retries are exhausted).  On the success path: if the first `n - 1`
attempts fail with `HTTPError` and attempt `n` returns a decodable page,
the call succeeds after exactly `n` attempts with waits `1, 2, …,
2^(n-2)`; in particular two failures then success gives exactly the two
waits 1 and 2. -/
theorem c5_backoff_doubling (retries n : Nat) (T : Nat → AttemptOutcome) (p : PageBody)
    (h1 : 1 ≤ n) (h2 : n ≤ retries + 1)
    (hh : ∀ k, 1 ≤ k → k < n → T k = AttemptOutcome.httpError)
    (hok : T n = AttemptOutcome.ok p) (hdec : p.decodable = true) :
    (fetch_url retries T).result = FetchResult.success p.content ∧
    (fetch_url retries T).sleeps = (List.range (n-1)).map (fun i => 2 ^ i) ∧
    (fetch_url retries T).attempts = n := by
  rw [fetch_url_http_then_ok retries n T p h1 h2 hh hok, hdec]
  exact ⟨rfl, rfl, rfl⟩

/-- Witness for C5 (amended): `retries = 3`, `HTTPError` on attempts 1
and 2, success on attempt 3: the page is returned with exactly the two
back-off waits 1 and 2. -/
theorem c5_backoff_doubling_witness :
    (fetch_url 3 (fun k => if k < 3 then AttemptOutcome.httpError
        else AttemptOutcome.ok ⟨true, 42⟩)).result = FetchResult.success 42 ∧
    (fetch_url 3 (fun k => if k < 3 then AttemptOutcome.httpError
        else AttemptOutcome.ok ⟨true, 42⟩)).sleeps = [1, 2] ∧
    (fetch_url 3 (fun k => if k < 3 then AttemptOutcome.httpError
        else AttemptOutcome.ok ⟨true, 42⟩)).attempts = 3 := by
  have h := c5_backoff_doubling 3 3
    (fun k => if k < 3 then AttemptOutcome.httpError else AttemptOutcome.ok ⟨true, 42⟩)
    ⟨true, 42⟩ (by decide) (by decide) (fun k _ hk => if_pos hk) (by decide) rfl
  exact ⟨h.1, h.2.1.trans (by decide), h.2.2⟩

/-- C6: only an `HTTPError` triggers a retry; any other transport
exception raised on attempt `n` (after `n - 1` `HTTPError` attempts)
propagates to the caller unmodified, with no further attempt. -/
theorem c6_other_exception_propagates (retries n e : Nat) (T : Nat → AttemptOutcome)
    (h1 : 1 ≤ n) (h2 : n ≤ retries + 1)
    (hh : ∀ k, 1 ≤ k → k < n → T k = AttemptOutcome.httpError)
    (hother : T n = AttemptOutcome.otherError e) :
    (fetch_url retries T).result = FetchResult.raised e ∧
    (fetch_url retries T).attempts = n := by
  rw [fetch_url_http_then_other retries n e T h1 h2 hh hother]
  exact ⟨rfl, rfl⟩

/-- Witness for C6: `retries = 3`, `HTTPError` on attempt 1, a
connection-style exception (payload 7) on attempt 2: the exception is
re-raised after exactly 2 attempts. -/
theorem c6_other_exception_propagates_witness :
    (fetch_url 3 (fun k => if k = 1 then AttemptOutcome.httpError
        else AttemptOutcome.otherError 7)).result = FetchResult.raised 7 ∧
    (fetch_url 3 (fun k => if k = 1 then AttemptOutcome.httpError
        else AttemptOutcome.otherError 7)).attempts = 2 := by
  have h := c6_other_exception_propagates 3 2 7
    (fun k => if k = 1 then AttemptOutcome.httpError else AttemptOutcome.otherError 7)
    (by decide) (by decide)
    (fun k hk1 hk2 => by
      have hk : k = 1 := by omega
      subst hk
      rfl)
    rfl
  exact h

/-! ## Range fetch (`CarbonIntensityAPI.between`)

The per-page JSON parsing (`_parse_fromto_json`) and the HTTP transport
are external collaborators; from `between`'s point of view each issued
request window yields, in national mode, one tabular fragment, and in
regional mode a pair of fragments (carbon table, generation-mix table).
They are modelled as functions `pN` / `pR` from the request window to the
fragment(s), and `between` additionally returns the list of request
windows it issued, in order, so that the outbound HTTP interaction is
observable. -/

/-- The `type` parameter of `between` after validation ("national" or
"regional"). -/
inductive Mode where
  | national : Mode
  | regional : Mode
deriving DecidableEq

/-- Embedding of `self.max_range`: 14 days for both "national" and
"regional", in microseconds. -/
def max_range : Mode → Nat
  | Mode.national => 14 * usPerDay
  | Mode.regional => 14 * usPerDay

theorem max_range_pos (m : Mode) : 0 < max_range m := by
  cases m <;> decide

/-- An opaque tabular fragment (one page's parsed DataFrame); rows are
opaque identifiers. -/
structure Frag where
  rows : List Nat
deriving DecidableEq

/-- Embedding of `pd.concat((a, b), ignore_index=True)`. -/
def fragConcat (a b : Frag) : Frag := ⟨a.rows ++ b.rows⟩

/-- Embedding of `carbon_ = data if type == "national" else data[0]`. -/
def pageCarbon (mode : Mode) (pN : Nat × Nat → Frag) (pR : Nat × Nat → Frag × Frag)
    (w : Nat × Nat) : Frag :=
  match mode with
  | Mode.national => pN w
  | Mode.regional => (pR w).1

/-- Embedding of `gen_mix_ = None if type == "national" else data[1]`. -/
def pageGen (mode : Mode) (pR : Nat × Nat → Frag × Frag) (w : Nat × Nat) : Option Frag :=
  match mode with
  | Mode.national => none
  | Mode.regional => some (pR w).2

/-- Embedding of `carbon = carbon_ if carbon is None else pd.concat((carbon, carbon_))`. -/
def accumCarbon : Option Frag → Frag → Option Frag
  | none, c => some c
  | some acc, c => some (fragConcat acc c)

/-- Embedding of `pd.concat((acc, g))` where `g` may be `None` (a `None` member
contributes nothing; only reachable with `g` present). -/
def pdConcatOpt (acc : Frag) : Option Frag → Frag
  | none => acc
  | some g => fragConcat acc g

/-- Embedding of `gen_mix = gen_mix_ if gen_mix is None else pd.concat((gen_mix, gen_mix_))`. -/
def accumGen : Option Frag → Option Frag → Option Frag
  | none, g => g
  | some acc, g => some (pdConcatOpt acc g)

/-- A Python `datetime` argument: its timestamp in microseconds and
whether it carries timezone information (`tzinfo is not None`). -/
structure PyDatetime where
  t : Nat
  tzAware : Bool
deriving DecidableEq

/-- The input-validation exceptions `between` raises (both are plain
`Exception`s in the source; the spec names them `InvalidInputError`). -/
inductive ApiError where
  | invalidTz : ApiError
  | invalidType : ApiError
deriving DecidableEq

/-- Embedding of Python `str.lower()` (character-wise lowercasing; the
ASCII range is all that matters for the recognized mode strings). -/
def strLower (s : String) : String := ⟨s.data.map Char.toLower⟩

/-- The `while request_start < end` loop of `between`: issue the request
for `[request_start, min(end, request_start + max_range - 30min)]`, parse
it, append the fragment(s) to the accumulators, and advance
`request_start` by the full `max_range`.  Returns the issued request
windows in order together with the final `(carbon, gen_mix)`
accumulators. -/
def betweenLoop (mode : Mode) (pN : Nat × Nat → Frag) (pR : Nat × Nat → Frag × Frag)
    (cursor e : Nat) (carbon gen : Option Frag) :
    List (Nat × Nat) × Option Frag × Option Frag :=
  if _h : cursor < e then
    let reqEnd := min e (cursor + max_range mode - 30 * usPerMinute)
    let rest := betweenLoop mode pN pR (cursor + max_range mode) e
      (accumCarbon carbon (pageCarbon mode pN pR (cursor, reqEnd)))
      (accumGen gen (pageGen mode pR (cursor, reqEnd)))
    ((cursor, reqEnd) :: rest.1, rest.2)
  else ([], carbon, gen)
termination_by e - cursor
decreasing_by
  have := max_range_pos mode
  omega

/-- Embedding of `CarbonIntensityAPI.between`: validate that both
datetimes are timezone-aware, round both up to the half hour, lowercase
and validate the mode string, then run the splitting loop from the
rounded start.  Returns the issued request windows and either the
validation error or the final `(carbon, gen_mix)` pair. -/
def between (s e : PyDatetime) (ty : String)
    (pN : Nat × Nat → Frag) (pR : Nat × Nat → Frag × Frag) :
    List (Nat × Nat) × Except ApiError (Option Frag × Option Frag) :=
  if s.tzAware = false ∨ e.tzAware = false then
    ([], Except.error ApiError.invalidTz)
  else if strLower ty = "national" ∨ strLower ty = "regional" then
    let mode := if strLower ty = "regional" then Mode.regional else Mode.national
    let r := betweenLoop mode pN pR (nearest_hh s.t) (nearest_hh e.t) none none
    (r.1, Except.ok r.2)
  else
    ([], Except.error ApiError.invalidType)

/-- Nat ceiling division, `ceil(n / m)`. -/
def ceilDiv (n m : Nat) : Nat := (n + m - 1) / m

theorem ceilDiv_zero_left (m : Nat) : ceilDiv 0 m = 0 := by
  unfold ceilDiv
  rcases Nat.eq_zero_or_pos m with h | h
  · subst h
    rfl
  · rw [Nat.zero_add]
    exact Nat.div_eq_of_lt (by omega)

theorem ceilDiv_step (n m : Nat) (hm : 0 < m) (hn : 0 < n) :
    ceilDiv n m = ceilDiv (n - m) m + 1 := by
  unfold ceilDiv
  rcases le_or_lt n m with h | h
  · have h0 : n - m = 0 := by omega
    have h1 : n + m - 1 = (n - 1) + m := by omega
    rw [h0, Nat.zero_add, h1, Nat.add_div_right _ hm,
      Nat.div_eq_of_lt (show n - 1 < m by omega), Nat.div_eq_of_lt (show m - 1 < m by omega)]
  · have h1 : n + m - 1 = (n - 1) + m := by omega
    have h2 : n - m + m - 1 = (n - m - 1) + m := by omega
    have h3 : n - 1 = (n - m - 1) + m := by omega
    rw [h1, h2, Nat.add_div_right _ hm, Nat.add_div_right _ hm, h3, Nat.add_div_right _ hm]

/-- One unfolding of the loop in the running case, request-list view. -/
theorem betweenLoop_requests_pos (mode : Mode) (pN : Nat × Nat → Frag)
    (pR : Nat × Nat → Frag × Frag) (cursor e : Nat) (carbon gen : Option Frag)
    (h : cursor < e) :
    (betweenLoop mode pN pR cursor e carbon gen).1 =
      (cursor, min e (cursor + max_range mode - 30 * usPerMinute)) ::
        (betweenLoop mode pN pR (cursor + max_range mode) e
          (accumCarbon carbon (pageCarbon mode pN pR
            (cursor, min e (cursor + max_range mode - 30 * usPerMinute))))
          (accumGen gen (pageGen mode pR
            (cursor, min e (cursor + max_range mode - 30 * usPerMinute))))).1 := by
  rw [betweenLoop.eq_def, dif_pos h]

/-- One unfolding of the loop in the running case, accumulator view. -/
theorem betweenLoop_acc_pos (mode : Mode) (pN : Nat × Nat → Frag)
    (pR : Nat × Nat → Frag × Frag) (cursor e : Nat) (carbon gen : Option Frag)
    (h : cursor < e) :
    (betweenLoop mode pN pR cursor e carbon gen).2 =
      (betweenLoop mode pN pR (cursor + max_range mode) e
        (accumCarbon carbon (pageCarbon mode pN pR
          (cursor, min e (cursor + max_range mode - 30 * usPerMinute))))
        (accumGen gen (pageGen mode pR
          (cursor, min e (cursor + max_range mode - 30 * usPerMinute))))).2 := by
  rw [betweenLoop.eq_def, dif_pos h]

/-- The loop does not run when `cursor ≥ end`. -/
theorem betweenLoop_neg (mode : Mode) (pN : Nat × Nat → Frag)
    (pR : Nat × Nat → Frag × Frag) (cursor e : Nat) (carbon gen : Option Frag)
    (h : ¬ cursor < e) :
    betweenLoop mode pN pR cursor e carbon gen = ([], carbon, gen) := by
  rw [betweenLoop.eq_def, dif_neg h]

/-- Master request-schedule lemma: the loop issues exactly
`ceil((end - cursor) / maxRange)` requests, the `i`-th starting at
`cursor + i * maxRange` and ending at
`min(end, start_i + maxRange - 30min)`. -/
theorem betweenLoop_requests (mode : Mode) (pN : Nat × Nat → Frag)
    (pR : Nat × Nat → Frag × Frag) (cursor e : Nat) (carbon gen : Option Frag) :
    (betweenLoop mode pN pR cursor e carbon gen).1 =
      (List.range (ceilDiv (e - cursor) (max_range mode))).map
        (fun i => (cursor + i * max_range mode,
          min e (cursor + i * max_range mode + max_range mode - 30 * usPerMinute))) := by
  by_cases h : cursor < e
  · rw [betweenLoop_requests_pos mode pN pR cursor e carbon gen h,
      betweenLoop_requests mode pN pR (cursor + max_range mode) e _ _,
      ceilDiv_step (e - cursor) (max_range mode) (max_range_pos mode) (by omega),
      List.range_succ_eq_map, List.map_cons, List.map_map]
    congr 1
    · simp
    · have he : e - (cursor + max_range mode) = e - cursor - max_range mode := by omega
      rw [he]
      apply List.map_congr_left
      intro i _
      simp only [Function.comp_apply]
      have h1 : cursor + Nat.succ i * max_range mode =
          cursor + max_range mode + i * max_range mode := by
        rw [Nat.succ_mul]
        ring
      rw [h1]
  · rw [betweenLoop_neg mode pN pR cursor e carbon gen h]
    have h0 : e - cursor = 0 := by omega
    rw [h0, ceilDiv_zero_left]
    simp
termination_by e - cursor
decreasing_by
  have := max_range_pos mode
  omega

/-- In national mode the `gen_mix` accumulator stays `None` forever. -/
theorem betweenLoop_national_gen (pN : Nat × Nat → Frag) (pR : Nat × Nat → Frag × Frag)
    (cursor e : Nat) (carbon : Option Frag) :
    (betweenLoop Mode.national pN pR cursor e carbon none).2.2 = none := by
  by_cases h : cursor < e
  · rw [betweenLoop_acc_pos Mode.national pN pR cursor e carbon none h]
    exact betweenLoop_national_gen pN pR (cursor + max_range Mode.national) e _
  · rw [betweenLoop_neg Mode.national pN pR cursor e carbon none h]
termination_by e - cursor
decreasing_by
  have := max_range_pos Mode.national
  omega

/-- In regional mode, once both accumulators are populated they stay
populated. -/
theorem betweenLoop_regional_some (pN : Nat × Nat → Frag) (pR : Nat × Nat → Frag × Frag)
    (cursor e : Nat) (cf gf : Frag) :
    ((betweenLoop Mode.regional pN pR cursor e (some cf) (some gf)).2.1).isSome = true ∧
    ((betweenLoop Mode.regional pN pR cursor e (some cf) (some gf)).2.2).isSome = true := by
  by_cases h : cursor < e
  · rw [betweenLoop_acc_pos Mode.regional pN pR cursor e (some cf) (some gf) h]
    exact betweenLoop_regional_some pN pR (cursor + max_range Mode.regional) e _ _
  · rw [betweenLoop_neg Mode.regional pN pR cursor e (some cf) (some gf) h]
    exact ⟨rfl, rfl⟩
termination_by e - cursor
decreasing_by
  have := max_range_pos Mode.regional
  omega

/-- Unfolding `between` on validated inputs: the request list and result come from
the splitting loop started at the rounded boundaries. -/
theorem between_valid (s e : PyDatetime) (ty : String)
    (pN : Nat × Nat → Frag) (pR : Nat × Nat → Frag × Frag)
    (hs : s.tzAware = true) (he : e.tzAware = true)
    (hty : strLower ty = "national" ∨ strLower ty = "regional") :
    between s e ty pN pR =
      ((betweenLoop (if strLower ty = "regional" then Mode.regional else Mode.national)
          pN pR (nearest_hh s.t) (nearest_hh e.t) none none).1,
       Except.ok (betweenLoop (if strLower ty = "regional" then Mode.regional else Mode.national)
          pN pR (nearest_hh s.t) (nearest_hh e.t) none none).2) := by
  unfold between
  rw [if_neg (by simp [hs, he]), if_pos hty]

theorem thirty_le_max_range (m : Mode) : 30 * usPerMinute ≤ max_range m := by
  cases m <;> decide

/-- If `i < ceil(n / m)` then the `i`-th chunk start `i * m` lies inside
`[0, n)`. -/
theorem ceilDiv_mul_lt (i n m : Nat) (hm : 0 < m) (h : i < ceilDiv n m) : i * m < n := by
  by_contra hle
  push_neg at hle
  unfold ceilDiv at h
  have hmul : m * i = i * m := Nat.mul_comm m i
  have h2 : n + m - 1 ≤ (m - 1) + m * i := by omega
  have h3 : ((m - 1) + m * i) / m = (m - 1) / m + i := Nat.add_mul_div_left (m - 1) i hm
  have h4 : (n + m - 1) / m ≤ (m - 1) / m + i := by
    rw [← h3]
    exact Nat.div_le_div_right h2
  have h5 : (m - 1) / m = 0 := Nat.div_eq_of_lt (by omega)
  omega

theorem accumCarbon_none (c : Frag) : accumCarbon none c = some c := rfl

theorem accumGen_none (g : Option Frag) : accumGen none g = g := rfl

theorem pageGen_regional (pR : Nat × Nat → Frag × Frag) (w : Nat × Nat) :
    pageGen Mode.regional pR w = some (pR w).2 := rfl

/-- C1: on validated timezone-aware inputs and a recognized mode
(case-insensitively), `between` issues exactly
`ceil((end - start) / maxRange)` page requests when the rounded range is
non-empty, and zero requests when the rounded start is at or after the
rounded end — for every transport/parser collaborator, in particular one
returning a fixed valid page. -/
theorem c1_page_request_count (s e : PyDatetime) (ty : String)
    (pN : Nat × Nat → Frag) (pR : Nat × Nat → Frag × Frag)
    (hs : s.tzAware = true) (he : e.tzAware = true)
    (hty : strLower ty = "national" ∨ strLower ty = "regional") :
    (nearest_hh s.t < nearest_hh e.t →
      (between s e ty pN pR).1.length =
        ceilDiv (nearest_hh e.t - nearest_hh s.t)
          (max_range (if strLower ty = "regional" then Mode.regional else Mode.national))) ∧
    (nearest_hh e.t ≤ nearest_hh s.t → (between s e ty pN pR).1.length = 0) := by
  rw [between_valid s e ty pN pR hs he hty]
  dsimp only
  rw [betweenLoop_requests]
  constructor
  · intro _
    simp
  · intro h
    have h0 : nearest_hh e.t - nearest_hh s.t = 0 := by omega
    rw [h0, ceilDiv_zero_left]
    simp

/-- Witness for C1: start at the epoch, end one microsecond past 14
days; after rounding the range is 14 days + 30 minutes + 1 microsecond,
so exactly 2 page requests are issued. -/
theorem c1_page_request_count_witness :
    (between ⟨0, true⟩ ⟨1209600000001, true⟩ "national"
      (fun _ => ⟨[]⟩) (fun _ => (⟨[]⟩, ⟨[]⟩))).1.length = 2 := by
  have h := c1_page_request_count ⟨0, true⟩ ⟨1209600000001, true⟩ "national"
    (fun _ => ⟨[]⟩) (fun _ => (⟨[]⟩, ⟨[]⟩)) rfl rfl (Or.inl (by decide))
  exact (h.1 (by decide)).trans (by decide)

/-- C4: the `i`-th request window issued by `between` starts exactly
`i * maxRange` after the rounded start and ends at
`min(end, start_i + maxRange - 30min)` — the cursor advances by the full
`maxRange` each iteration, not by the clipped window span. -/
theorem c4_window_schedule (s e : PyDatetime) (ty : String)
    (pN : Nat × Nat → Frag) (pR : Nat × Nat → Frag × Frag)
    (hs : s.tzAware = true) (he : e.tzAware = true)
    (hty : strLower ty = "national" ∨ strLower ty = "regional") (i : Nat)
    (hi : i < ceilDiv (nearest_hh e.t - nearest_hh s.t)
        (max_range (if strLower ty = "regional" then Mode.regional else Mode.national))) :
    (between s e ty pN pR).1[i]? =
      some (nearest_hh s.t + i * max_range
          (if strLower ty = "regional" then Mode.regional else Mode.national),
        min (nearest_hh e.t)
          (nearest_hh s.t + i * max_range
              (if strLower ty = "regional" then Mode.regional else Mode.national)
            + max_range (if strLower ty = "regional" then Mode.regional else Mode.national)
            - 30 * usPerMinute)) := by
  rw [between_valid s e ty pN pR hs he hty]
  dsimp only
  rw [betweenLoop_requests, List.getElem?_map, List.getElem?_range hi]
  rfl

/-- Witness for C4: with the 2-request schedule of the C1 witness input,
the second request window (index 1) starts exactly `maxRange` after the
rounded start and is clipped to the rounded end. -/
theorem c4_window_schedule_witness :
    (between ⟨0, true⟩ ⟨1209600000001, true⟩ "national"
      (fun _ => ⟨[]⟩) (fun _ => (⟨[]⟩, ⟨[]⟩))).1[1]? =
      some (1209600000000, 1211400000001) := by
  have h := c4_window_schedule ⟨0, true⟩ ⟨1209600000001, true⟩ "national"
    (fun _ => ⟨[]⟩) (fun _ => (⟨[]⟩, ⟨[]⟩)) rfl rfl (Or.inl (by decide)) 1 (by decide)
  exact h.trans (by decide)

/-- C7: a naive (non-timezone-aware) start or end, or a mode string that
is not (case-insensitively) one of the two recognized values, makes
`between` fail with an invalid-input error with no HTTP request issued. -/
theorem c7_invalid_input (s e : PyDatetime) (ty : String)
    (pN : Nat × Nat → Frag) (pR : Nat × Nat → Frag × Frag)
    (h : s.tzAware = false ∨ e.tzAware = false ∨
      (strLower ty ≠ "national" ∧ strLower ty ≠ "regional")) :
    (between s e ty pN pR).1 = [] ∧
    ((between s e ty pN pR).2 = Except.error ApiError.invalidTz ∨
     (between s e ty pN pR).2 = Except.error ApiError.invalidType) := by
  unfold between
  rcases h with h | h | h
  · rw [if_pos (Or.inl h)]
    exact ⟨rfl, Or.inl rfl⟩
  · rw [if_pos (Or.inr h)]
    exact ⟨rfl, Or.inl rfl⟩
  · by_cases htz : s.tzAware = false ∨ e.tzAware = false
    · rw [if_pos htz]
      exact ⟨rfl, Or.inl rfl⟩
    · rw [if_neg htz, if_neg (by tauto)]
      exact ⟨rfl, Or.inr rfl⟩

/-- Witness for C7: a naive start datetime is rejected with no request
issued. -/
theorem c7_invalid_input_witness :
    (between ⟨0, false⟩ ⟨0, true⟩ "national"
      (fun _ => ⟨[]⟩) (fun _ => (⟨[]⟩, ⟨[]⟩))).1 = [] ∧
    ((between ⟨0, false⟩ ⟨0, true⟩ "national"
      (fun _ => ⟨[]⟩) (fun _ => (⟨[]⟩, ⟨[]⟩))).2 = Except.error ApiError.invalidTz ∨
     (between ⟨0, false⟩ ⟨0, true⟩ "national"
      (fun _ => ⟨[]⟩) (fun _ => (⟨[]⟩, ⟨[]⟩))).2 = Except.error ApiError.invalidType) :=
  c7_invalid_input ⟨0, false⟩ ⟨0, true⟩ "national"
    (fun _ => ⟨[]⟩) (fun _ => (⟨[]⟩, ⟨[]⟩)) (Or.inl rfl)

/-- C8: on valid inputs whose rounded start is at or after the rounded
end, `between` succeeds with an empty result (`(None, None)`), issuing no
requests: the splitting loop executes zero iterations. -/
theorem c8_empty_range (s e : PyDatetime) (ty : String)
    (pN : Nat × Nat → Frag) (pR : Nat × Nat → Frag × Frag)
    (hs : s.tzAware = true) (he : e.tzAware = true)
    (hty : strLower ty = "national" ∨ strLower ty = "regional")
    (hrange : nearest_hh e.t ≤ nearest_hh s.t) :
    (between s e ty pN pR).1 = [] ∧
    (between s e ty pN pR).2 = Except.ok (none, none) := by
  rw [between_valid s e ty pN pR hs he hty,
    betweenLoop_neg _ _ _ _ _ _ _ (by omega)]
  exact ⟨rfl, rfl⟩

/-- Witness for C8: equal start and end on a half-hour boundary yield an
empty successful result and zero requests. -/
theorem c8_empty_range_witness :
    (between ⟨0, true⟩ ⟨0, true⟩ "regional"
      (fun _ => ⟨[]⟩) (fun _ => (⟨[]⟩, ⟨[]⟩))).1 = [] ∧
    (between ⟨0, true⟩ ⟨0, true⟩ "regional"
      (fun _ => ⟨[]⟩) (fun _ => (⟨[]⟩, ⟨[]⟩))).2 = Except.ok (none, none) :=
  c8_empty_range ⟨0, true⟩ ⟨0, true⟩ "regional"
    (fun _ => ⟨[]⟩) (fun _ => (⟨[]⟩, ⟨[]⟩)) rfl rfl (Or.inr rfl) (by decide)

/-- C9: every request window `[cursor, pageEnd]` issued by `between`
has `cursor` strictly before the rounded end, `pageEnd ≥ cursor`
(non-negative length), and length at most `maxRange - 30min`, hence
strictly less than the per-mode maximum window. -/
theorem c9_window_bounds (s e : PyDatetime) (ty : String)
    (pN : Nat × Nat → Frag) (pR : Nat × Nat → Frag × Frag)
    (hs : s.tzAware = true) (he : e.tzAware = true)
    (hty : strLower ty = "national" ∨ strLower ty = "regional")
    (w : Nat × Nat) (hw : w ∈ (between s e ty pN pR).1) :
    w.1 < nearest_hh e.t ∧ w.1 ≤ w.2 ∧
    w.2 - w.1 ≤ max_range (if strLower ty = "regional" then Mode.regional else Mode.national)
      - 30 * usPerMinute ∧
    w.2 - w.1 < max_range (if strLower ty = "regional" then Mode.regional else Mode.national) := by
  rw [between_valid s e ty pN pR hs he hty] at hw
  dsimp only at hw
  rw [betweenLoop_requests] at hw
  set M := if strLower ty = "regional" then Mode.regional else Mode.national with hM
  obtain ⟨i, hi, hfi⟩ := List.mem_map.mp hw
  rw [List.mem_range] at hi
  rw [← hfi]
  dsimp only
  have hmpos := max_range_pos M
  have h30 := thirty_le_max_range M
  have h30pos : 0 < 30 * usPerMinute := by decide
  have hlt : nearest_hh s.t + i * max_range M < nearest_hh e.t := by
    have := ceilDiv_mul_lt i (nearest_hh e.t - nearest_hh s.t) (max_range M) hmpos hi
    omega
  refine ⟨hlt, ?_, ?_, ?_⟩
  · exact le_min (le_of_lt hlt) (by omega)
  · have := min_le_right (nearest_hh e.t)
      (nearest_hh s.t + i * max_range M + max_range M - 30 * usPerMinute)
    omega
  · have := min_le_right (nearest_hh e.t)
      (nearest_hh s.t + i * max_range M + max_range M - 30 * usPerMinute)
    omega

/-- The `i`-th scheduled window is among the requests `between` issues. -/
theorem between_req_mem (s e : PyDatetime) (ty : String)
    (pN : Nat × Nat → Frag) (pR : Nat × Nat → Frag × Frag)
    (hs : s.tzAware = true) (he : e.tzAware = true)
    (hty : strLower ty = "national" ∨ strLower ty = "regional") (i : Nat)
    (hi : i < ceilDiv (nearest_hh e.t - nearest_hh s.t)
        (max_range (if strLower ty = "regional" then Mode.regional else Mode.national))) :
    (nearest_hh s.t + i * max_range
        (if strLower ty = "regional" then Mode.regional else Mode.national),
      min (nearest_hh e.t)
        (nearest_hh s.t + i * max_range
            (if strLower ty = "regional" then Mode.regional else Mode.national)
          + max_range (if strLower ty = "regional" then Mode.regional else Mode.national)
          - 30 * usPerMinute)) ∈ (between s e ty pN pR).1 := by
  rw [between_valid s e ty pN pR hs he hty]
  dsimp only
  rw [betweenLoop_requests]
  exact List.mem_map.mpr ⟨i, List.mem_range.mpr hi, rfl⟩

/-- Witness for C9: the first window of the C1 witness input is
`[0, maxRange - 30min]`, whose length is exactly `maxRange - 30min`. -/
theorem c9_window_bounds_witness :
    ((0 : Nat), (1207800000000 : Nat)).1 < nearest_hh 1209600000001 ∧
    ((0 : Nat), (1207800000000 : Nat)).1 ≤ ((0 : Nat), (1207800000000 : Nat)).2 ∧
    ((0 : Nat), (1207800000000 : Nat)).2 - ((0 : Nat), (1207800000000 : Nat)).1 ≤
      max_range (if strLower "national" = "regional" then Mode.regional else Mode.national)
        - 30 * usPerMinute ∧
    ((0 : Nat), (1207800000000 : Nat)).2 - ((0 : Nat), (1207800000000 : Nat)).1 <
      max_range (if strLower "national" = "regional" then Mode.regional else Mode.national) := by
  have hw := between_req_mem ⟨0, true⟩ ⟨1209600000001, true⟩ "national"
    (fun _ => ⟨[]⟩) (fun _ => (⟨[]⟩, ⟨[]⟩)) rfl rfl (Or.inl (by decide)) 0 (by decide)
  exact c9_window_bounds ⟨0, true⟩ ⟨1209600000001, true⟩ "national"
    (fun _ => ⟨[]⟩) (fun _ => (⟨[]⟩, ⟨[]⟩)) rfl rfl (Or.inl (by decide)) _ hw

/-- C10: `between` always returns a 2-tuple (by construction); on a
successful national-mode call the second component is `None`, and on a
regional-mode call with a non-empty rounded range both components are
populated tables. -/
theorem c10_result_shape (s e : PyDatetime) (ty : String)
    (pN : Nat × Nat → Frag) (pR : Nat × Nat → Frag × Frag)
    (hs : s.tzAware = true) (he : e.tzAware = true) :
    (strLower ty = "national" →
      ∃ c, (between s e ty pN pR).2 = Except.ok (c, none)) ∧
    (strLower ty = "regional" → nearest_hh s.t < nearest_hh e.t →
      ∃ cf gf, (between s e ty pN pR).2 = Except.ok (some cf, some gf)) := by
  constructor
  · intro hn
    rw [between_valid s e ty pN pR hs he (Or.inl hn),
      if_neg (show ¬ strLower ty = "regional" by rw [hn]; decide)]
    refine ⟨(betweenLoop Mode.national pN pR (nearest_hh s.t) (nearest_hh e.t)
      none none).2.1, ?_⟩
    have hg := betweenLoop_national_gen pN pR (nearest_hh s.t) (nearest_hh e.t) none
    dsimp only
    exact congrArg Except.ok (Prod.ext rfl hg)
  · intro hr hlt
    rw [between_valid s e ty pN pR hs he (Or.inr hr), if_pos hr]
    dsimp only
    rw [betweenLoop_acc_pos Mode.regional pN pR _ _ none none hlt,
      accumCarbon_none, accumGen_none, pageGen_regional]
    have h2 := betweenLoop_regional_some pN pR
      (nearest_hh s.t + max_range Mode.regional) (nearest_hh e.t)
      (pageCarbon Mode.regional pN pR (nearest_hh s.t,
        min (nearest_hh e.t) (nearest_hh s.t + max_range Mode.regional - 30 * usPerMinute)))
      ((pR (nearest_hh s.t,
        min (nearest_hh e.t) (nearest_hh s.t + max_range Mode.regional - 30 * usPerMinute))).2)
    obtain ⟨cv, hcv⟩ := Option.isSome_iff_exists.mp h2.1
    obtain ⟨gv, hgv⟩ := Option.isSome_iff_exists.mp h2.2
    exact ⟨cv, gv, congrArg Except.ok (Prod.ext hcv hgv)⟩

/-- Witness for C10: an upper-case mode string is recognized; national
mode yields `(table, None)`, regional mode on the same non-empty range
yields two populated tables. -/
theorem c10_result_shape_witness :
    (∃ c, (between ⟨0, true⟩ ⟨1, true⟩ "NATIONAL"
      (fun _ => ⟨[]⟩) (fun _ => (⟨[]⟩, ⟨[]⟩))).2 = Except.ok (c, none)) ∧
    (∃ cf gf, (between ⟨0, true⟩ ⟨1, true⟩ "regional"
      (fun _ => ⟨[]⟩) (fun _ => (⟨[]⟩, ⟨[]⟩))).2 = Except.ok (some cf, some gf)) := by
  constructor
  · exact (c10_result_shape ⟨0, true⟩ ⟨1, true⟩ "NATIONAL"
      (fun _ => ⟨[]⟩) (fun _ => (⟨[]⟩, ⟨[]⟩)) rfl rfl).1 (by decide)
  · exact (c10_result_shape ⟨0, true⟩ ⟨1, true⟩ "regional"
      (fun _ => ⟨[]⟩) (fun _ => (⟨[]⟩, ⟨[]⟩)) rfl rfl).2 rfl (by decide)

end CarbonIntensity
